import Mathlib

/-
Verification development for the Chanuka pattern scanner
(src/scripts/archived-analysis-tools/chanuka_error_extractor.py).

The scanner is embedded shallowly: Python strings become `List Char`,
regular expressions become an AST (`Re`) produced by a parser that models
`re.compile` (including its rejection of the invalid `\u` escape), and
`re.Pattern.search` becomes a fuel-bounded backtracking matcher.  File
system trees are an inductive type, file contents are byte lists read
through a UTF-8 "errors ignored" decoder, and the mutable accumulation of
the Python object (`self.errors`, `self.file_count`, `self.scanned_lines`)
is modelled by functions returning the appended findings and the counter
increments, concatenated in the same order the Python code appends them.
The wall-clock `timestamp` field of a finding is omitted: it is the one
field of the record that is not a function of the scanned data.
-/

/-! ## Python string primitives over `List Char` -/

/-- The characters Python's `str.strip` / `\s` treat as whitespace (ASCII part). -/
def isSpaceCh (c : Char) : Bool :=
  c = ' ' || c = '\t' || c = '\n' || c = '\r' || c = '\x0b' || c = '\x0c'

/-- Python `\w` (ASCII part): letters, digits, underscore. -/
def isWordCh (c : Char) : Bool :=
  c.isAlpha || c.isDigit || c = '_'

/-- Python `str.strip()`: drop whitespace from both ends. -/
def pyStrip (s : List Char) : List Char :=
  ((s.dropWhile isSpaceCh).reverse.dropWhile isSpaceCh).reverse

/-- Python `str.startswith`: `s` begins with `p`. -/
def startsWithStr : List Char → List Char → Bool
  | _, [] => true
  | [], _ :: _ => false
  | c :: cs, d :: ds => c = d && startsWithStr cs ds

/-- Python `str.split(sep)` for a single-character separator. -/
def splitCh (sep : Char) : List Char → List (List Char)
  | [] => [[]]
  | c :: cs =>
    if c = sep then [] :: splitCh sep cs
    else
      match splitCh sep cs with
      | [] => [[c]]
      | r :: rs => (c :: r) :: rs

/-! ## Regular expressions

`Re` is the abstract syntax produced by compiling the scanner's pattern
strings; it covers exactly the constructs those patterns use.  `reMatch`
is a backtracking matcher returning every way a regex can consume a prefix
of the remaining input (the boolean result of `re.search` only needs
existence of a match, so greedy preference order is irrelevant). -/

inductive Re where
  /-- matches the empty string -/
  | eps : Re
  /-- a literal character -/
  | lit (c : Char) : Re
  /-- `.` — any character except a newline -/
  | any : Re
  /-- `\s` -/
  | ws : Re
  /-- `\w` -/
  | wd : Re
  /-- `\b` word boundary (zero width) -/
  | wb : Re
  /-- character class `[...]` / `[^...]` over explicit characters -/
  | cls (neg : Bool) (items : List Char) : Re
  | seq (a b : Re) : Re
  | alt (a b : Re) : Re
  /-- `r*` -/
  | star (r : Re) : Re
  /-- `r{n,}` -/
  | repGe (n : Nat) (r : Re) : Re
  /-- negative lookahead `(?!r)` -/
  | nla (r : Re) : Re
  /-- negative lookbehind `(?<!r)` -/
  | nlb (r : Re) : Re
deriving DecidableEq

/-- Word-boundary test: `left` is the already-consumed text, reversed. -/
def atWordBoundary (left s : List Char) : Bool :=
  (match left with | [] => false | c :: _ => isWordCh c)
    != (match s with | [] => false | c :: _ => isWordCh c)

/-- Membership test for a character class. -/
def clsMatch (neg : Bool) (items : List Char) (c : Char) : Bool :=
  if neg then !(items.contains c) else items.contains c

mutual

/-- All ways `r` can match a prefix of `s`; each result is the updated
reversed left context and the remaining input.  `fuel` bounds recursion
depth, decremented at every recursive call. -/
def reMatch : Nat → Re → List Char → List Char → List (List Char × List Char)
  | 0, _, _, _ => []
  | fuel + 1, r, left, s =>
    match r with
    | .eps => [(left, s)]
    | .lit c =>
      match s with
      | d :: rest => if d = c then [(d :: left, rest)] else []
      | [] => []
    | .any =>
      match s with
      | d :: rest => if d = '\n' then [] else [(d :: left, rest)]
      | [] => []
    | .ws =>
      match s with
      | d :: rest => if isSpaceCh d then [(d :: left, rest)] else []
      | [] => []
    | .wd =>
      match s with
      | d :: rest => if isWordCh d then [(d :: left, rest)] else []
      | [] => []
    | .wb => if atWordBoundary left s then [(left, s)] else []
    | .cls neg items =>
      match s with
      | d :: rest => if clsMatch neg items d then [(d :: left, rest)] else []
      | [] => []
    | .seq a b =>
      (reMatch fuel a left s).flatMap fun p => reMatch fuel b p.1 p.2
    | .alt a b => reMatch fuel a left s ++ reMatch fuel b left s
    | .star a =>
      (left, s) ::
        (reMatch fuel a left s).flatMap fun p =>
          if p.2.length < s.length then reMatch fuel (.star a) p.1 p.2 else []
    | .repGe n a =>
      match n with
      | 0 => reMatch fuel (.star a) left s
      | n + 1 =>
        (reMatch fuel a left s).flatMap fun p => reMatch fuel (.repGe n a) p.1 p.2
    | .nla a => if (reMatch fuel a left s).isEmpty then [(left, s)] else []
    | .nlb a => if lookbehindHit fuel a left s then [] else [(left, s)]

/-- Does `a` match a stretch of already-consumed text ending exactly at the
current position?  (Python only allows fixed-width lookbehind, which this
generalizes.) -/
def lookbehindHit : Nat → Re → List Char → List Char → Bool
  | 0, _, _, _ => false
  | fuel + 1, a, left, _ =>
    (List.range (left.length + 1)).any fun k =>
      (reMatch fuel a (left.drop k) ((left.take k).reverse)).any fun p => p.2.isEmpty

end

/-- Structural size of a regex, used to budget matcher fuel. -/
def reSize : Re → Nat
  | .eps | .lit _ | .any | .ws | .wd | .wb | .cls _ _ => 1
  | .seq a b | .alt a b => reSize a + reSize b + 1
  | .star r | .nla r | .nlb r => reSize r + 1
  | .repGe n r => (n + 1) * (reSize r + 1) + 1

/-- `re.Pattern.search(line)` at a fixed start position. -/
def matchFuel (r : Re) (s : List Char) : Nat :=
  (reSize r + 2) * (s.length + 2) + 8

/-- Try `r` at every start position, as `re.search` does. -/
def reSearchAux : Nat → Re → List Char → List Char → Bool
  | 0, _, _, _ => false
  | fuel + 1, r, left, s =>
    if (reMatch (matchFuel r s) r left s).isEmpty then
      match s with
      | [] => false
      | c :: rest => reSearchAux fuel r (c :: left) rest
    else true

/-- Boolean result of `re.Pattern.search` on a whole line. -/
def reSearch (r : Re) (s : List Char) : Bool :=
  reSearchAux (s.length + 1) r [] s

/-! ## Compiling pattern strings

A recursive-descent parser for the fragment of Python regex syntax the
scanner's rules use.  `re.compile` failures are modelled by returning
`none`; in particular `\` followed by an ASCII letter that is not one of
the recognized escapes is rejected, matching Python's `re.error` for bad
or incomplete escapes (the scanner's `useState_initial` rule contains the
invalid escape `\u` and really fails to compile). -/

/-- Parse `{n,}` after an atom; `none` leaves the brace to be read as a
literal, as Python does for braces that do not form a quantifier. -/
def parseBound (s : List Char) : Option (Nat × List Char) :=
  let digits := s.takeWhile Char.isDigit
  let rest := s.dropWhile Char.isDigit
  if digits.isEmpty then none
  else
    match rest with
    | ',' :: '}' :: rest' =>
      some (digits.foldl (fun n c => n * 10 + (c.toNat - '0'.toNat)) 0, rest')
    | _ => none

/-- One item of a character class body; letters after `\` are rejected
(no such escapes occur inside the scanner's classes). -/
def parseClsItem : List Char → Option (Char × List Char)
  | '\\' :: c :: rest => if c.isAlpha then none else some (c, rest)
  | '\\' :: [] => none
  | c :: rest => some (c, rest)
  | [] => none

/-- Body of a character class, up to the closing `]`. -/
def parseClsBody : Nat → List Char → Option (List Char × List Char)
  | 0, _ => none
  | _ + 1, ']' :: rest => some ([], rest)
  | fuel + 1, s => do
    let (c, s1) ← parseClsItem s
    let (items, s2) ← parseClsBody fuel s1
    pure (c :: items, s2)

mutual

/-- `alt ::= seq ('|' alt)?` -/
def parseAlt : Nat → List Char → Option (Re × List Char)
  | 0, _ => none
  | fuel + 1, s => do
    let (r, s1) ← parseSeq fuel s
    match s1 with
    | '|' :: s2 =>
      let (r2, s3) ← parseAlt fuel s2
      pure (Re.alt r r2, s3)
    | _ => pure (r, s1)

/-- `seq ::= rep*` (stops at `)`, `|`, or end of input) -/
def parseSeq : Nat → List Char → Option (Re × List Char)
  | 0, _ => none
  | fuel + 1, s =>
    match s with
    | [] => some (Re.eps, [])
    | ')' :: _ => some (Re.eps, s)
    | '|' :: _ => some (Re.eps, s)
    | _ => do
      let (r, s1) ← parseRep fuel s
      let (r2, s2) ← parseSeq fuel s1
      pure (Re.seq r r2, s2)

/-- `rep ::= atom ('*' | '+' | '?' | '{n,}')?` -/
def parseRep : Nat → List Char → Option (Re × List Char)
  | 0, _ => none
  | fuel + 1, s => do
    let (a, s1) ← parseAtom fuel s
    match s1 with
    | '*' :: s2 => pure (Re.star a, s2)
    | '+' :: s2 => pure (Re.seq a (Re.star a), s2)
    | '?' :: s2 => pure (Re.alt a Re.eps, s2)
    | '{' :: s2 =>
      match parseBound s2 with
      | some (n, s3) => pure (Re.repGe n a, s3)
      | none => pure (a, s1)
    | _ => pure (a, s1)

/-- Atoms: groups, lookarounds, classes, `.`, escapes, literals. -/
def parseAtom : Nat → List Char → Option (Re × List Char)
  | 0, _ => none
  | fuel + 1, s =>
    match s with
    | '(' :: '?' :: '!' :: s1 => do
      let (r, s2) ← parseAlt fuel s1
      match s2 with
      | ')' :: s3 => pure (Re.nla r, s3)
      | _ => none
    | '(' :: '?' :: '<' :: '!' :: s1 => do
      let (r, s2) ← parseAlt fuel s1
      match s2 with
      | ')' :: s3 => pure (Re.nlb r, s3)
      | _ => none
    | '(' :: '?' :: ':' :: s1 => do
      let (r, s2) ← parseAlt fuel s1
      match s2 with
      | ')' :: s3 => pure (r, s3)
      | _ => none
    | '(' :: s1 => do
      let (r, s2) ← parseAlt fuel s1
      match s2 with
      | ')' :: s3 => pure (r, s3)
      | _ => none
    | '[' :: '^' :: s1 => do
      let (items, s2) ← parseClsBody (s1.length + 1) s1
      pure (Re.cls true items, s2)
    | '[' :: s1 => do
      let (items, s2) ← parseClsBody (s1.length + 1) s1
      pure (Re.cls false items, s2)
    | '.' :: s1 => pure (Re.any, s1)
    | '\\' :: c :: s1 =>
      match c with
      | 's' => pure (Re.ws, s1)
      | 'w' => pure (Re.wd, s1)
      | 'b' => pure (Re.wb, s1)
      | 'd' => pure (Re.cls false ("0123456789".data), s1)
      | c => if c.isAlpha then none else pure (Re.lit c, s1)
    | '\\' :: [] => none
    | ')' :: _ => none
    | '|' :: _ => none
    | '*' :: _ => none
    | '+' :: _ => none
    | '?' :: _ => none
    | c :: s1 => pure (Re.lit c, s1)
    | [] => none

end

/-- `re.compile`, as an option: the parsed AST on success, `none` on a
pattern Python's `re` rejects. -/
def parseRegex (s : List Char) : Option Re :=
  match parseAlt (4 * s.length + 16) s with
  | some (r, []) => some r
  | _ => none

/-! ## The rule registry

`Pattern.__post_init__` compiles the regex and, on `re.error`, prints a
warning and stores `None`; `mkPattern` mirrors this with `compiled :
Option Re`, and `patternWarning` models the printed warning (the Python
text continues with the exception message, which the parser does not
reproduce). -/

structure Pattern where
  name : List Char
  regex : List Char
  severity : List Char
  message : List Char
  compiled : Option Re
deriving DecidableEq

def mkPattern (name regex severity message : List Char) : Pattern :=
  { name := name, regex := regex, severity := severity, message := message,
    compiled := parseRegex regex }

/-- The warning `__post_init__` prints when a regex fails to compile. -/
def patternWarning (name regex : List Char) : Option (List Char) :=
  match parseRegex regex with
  | none => some (("Warning: Invalid regex for ".data) ++ name)
  | some _ => none

/-- `_init_typescript_patterns` -/
def typescript_patterns : List Pattern :=
  [ mkPattern ("any_usage".data) (":\\s*any\\b|<any>|as\\s+any\\b".data)
      ("warning".data) ("Usage of \"any\" type reduces type safety".data),
    mkPattern ("ts_ignore".data) ("@ts-ignore".data)
      ("warning".data) ("TypeScript error suppression found".data),
    mkPattern ("ts_nocheck".data) ("@ts-nocheck".data)
      ("error".data) ("Entire file TypeScript checking disabled".data),
    mkPattern ("ts_expect_error".data) ("@ts-expect-error(?!\\s*:\\s*.+)".data)
      ("info".data) ("Expected TypeScript error (consider adding comment)".data),
    mkPattern ("non_null_assertion".data) ("!\\s*[;\\.\\[\\(]".data)
      ("warning".data) ("Non-null assertion operator (!) used - ensure safety".data),
    mkPattern ("unknown_type".data) (":\\s*unknown\\b".data)
      ("info".data) ("Unknown type used (safer than any, but consider specifics)".data),
    mkPattern ("type_assertion".data) ("as\\s+\\w+".data)
      ("info".data) ("Type assertion used - verify correctness".data) ]

/-- `_init_react_patterns` -/
def react_patterns : List Pattern :=
  [ mkPattern ("missing_key_prop".data)
      ("\\.map\\([^)]*\\)\\s*=>\\s*<\\w+[^>]*(?<!key=)[^>]*>".data)
      ("warning".data) ("Missing \"key\" prop in mapped component".data),
    mkPattern ("inline_function".data)
      ("(onClick|onChange|onSubmit|onBlur|onFocus)=\\\x7b[^\x7d]*=>".data)
      ("info".data) ("Inline function in JSX (may cause unnecessary re-renders)".data),
    mkPattern ("direct_state_mutation".data) ("(state|this\\.state)\\.\\w+\\s*=(?!=)".data)
      ("error".data) ("Direct state mutation detected - use setState".data),
    mkPattern ("empty_deps".data) ("useEffect\\([^)]+,\\s*\\[\\s*\\]\\s*\\)".data)
      ("info".data) ("useEffect with empty dependency array (runs once on mount)".data),
    mkPattern ("missing_deps".data) ("useEffect\\([^)]+\\)\\s*(?!,)".data)
      ("warning".data) ("useEffect without dependency array (runs on every render)".data),
    mkPattern ("useState_initial".data) ("useState\\(\\s*\\\x7b|\\useState\\(\\s*\\[".data)
      ("info".data) ("useState with object/array - ensure intentional".data),
    mkPattern ("dangerously_set".data) ("dangerouslySetInnerHTML".data)
      ("warning".data) ("dangerouslySetInnerHTML used - XSS risk".data) ]

/-- `_init_common_patterns` -/
def common_patterns : List Pattern :=
  [ mkPattern ("TODO".data) ("//\\s*TODO|/\\*\\s*TODO|#\\s*TODO".data)
      ("warning".data) ("TODO comment".data),
    mkPattern ("FIXME".data) ("//\\s*FIXME|/\\*\\s*FIXME|#\\s*FIXME".data)
      ("error".data) ("FIXME comment".data),
    mkPattern ("BUG".data) ("//\\s*BUG|/\\*\\s*BUG|#\\s*BUG".data)
      ("critical".data) ("BUG comment".data),
    mkPattern ("HACK".data) ("//\\s*HACK|/\\*\\s*HACK|#\\s*HACK".data)
      ("warning".data) ("HACK comment".data),
    mkPattern ("XXX".data) ("//\\s*XXX|/\\*\\s*XXX|#\\s*XXX".data)
      ("warning".data) ("XXX comment".data),
    mkPattern ("console.log".data) ("console\\.log\\(".data)
      ("info".data) ("Debug console.log".data),
    mkPattern ("console.error".data) ("console\\.error\\(".data)
      ("info".data) ("Console.error".data),
    mkPattern ("debugger".data) ("\\bdebugger\\b(?!:)".data)
      ("warning".data) ("Debugger statement".data),
    mkPattern ("alert".data) ("\\balert\\s*\\(".data)
      ("warning".data) ("Alert statement".data),
    mkPattern ("confirm".data) ("\\bconfirm\\s*\\(".data)
      ("warning".data) ("Confirm dialog".data),
    mkPattern ("eval".data) ("\\beval\\s*\\(".data)
      ("critical".data) ("eval() used - security risk".data),
    mkPattern ("localStorage".data) ("localStorage\\.(getItem|setItem|removeItem|clear)".data)
      ("info".data) ("Direct localStorage usage".data),
    mkPattern ("sessionStorage".data) ("sessionStorage\\.(getItem|setItem|removeItem|clear)".data)
      ("info".data) ("Direct sessionStorage usage".data),
    mkPattern ("fetch_no_catch".data)
      ("fetch\\([^)]+\\)(?!\\s*\\.catch|\\s*\\.then\\([^)]*,[^)]*\\))".data)
      ("warning".data) ("Fetch without error handling".data),
    mkPattern ("async_no_await".data) ("async\\s+function[^\x7b]*\x7b(?!.*await)".data)
      ("warning".data) ("Async function without await".data),
    mkPattern ("empty_catch".data) ("catch\\s*\\([^)]*\\)\\s*\x7b\\s*\x7d".data)
      ("warning".data) ("Empty catch block - handle errors properly".data) ]

/-- `_init_import_patterns` -/
def import_patterns : List Pattern :=
  [ mkPattern ("wildcard_import".data) ("import\\s+\\*\\s+as\\s+\\w+\\s+from".data)
      ("warning".data) ("Wildcard import (affects tree-shaking)".data),
    mkPattern ("deep_relative".data) ("from\\s+[\\'\"](\\.\\./)\x7b4,\x7d".data)
      ("warning".data) ("Deep relative import (consider path alias)".data),
    mkPattern ("unused_import_likely".data) ("import\\s+\x7b[^\x7d]\x7b80,\x7d\x7d\\s+from".data)
      ("info".data) ("Large import statement - verify all are used".data),
    mkPattern ("require_usage".data) ("\\brequire\\s*\\(".data)
      ("info".data) ("CommonJS require() in modern codebase".data) ]

/-- `_get_category` -/
def getCategory (p : Pattern) : List Char :=
  if p ∈ typescript_patterns then "TypeScript - ".data
  else if p ∈ react_patterns then "React - ".data
  else if p ∈ import_patterns then "Import/Export - ".data
  else "Code Quality - ".data

/-- The rule names `_check_patterns` still reports on comment lines. -/
def markerNames : List (List Char) :=
  ["TODO".data, "FIXME".data, "BUG".data, "HACK".data, "XXX".data]

/-! ## Findings

`add_error` builds the record appended to `self.errors`.  Paths are
segment lists; `sepJoin` renders them the way `str(Path(...))` does on the
scanner's platform.  The `timestamp` field is omitted (wall clock). -/

structure Finding where
  file : List Char
  relative_path : List Char
  module : List Char
  error_type : List Char
  severity : List Char
  message : List Char
  line : Nat
  column : Nat
  code_snippet : List Char
deriving DecidableEq

/-- Join path segments with the separator. -/
def sepJoin : List (List Char) → List Char
  | [] => []
  | [x] => x
  | x :: rest => x ++ '/' :: sepJoin rest

/-- `Path(file_path).relative_to(self.root_dir)`, with the `ValueError`
fallback to the full path when the root is not a prefix. -/
def relativeSegs (root path : List (List Char)) : List (List Char) :=
  if path.take root.length = root then path.drop root.length else path

/-- Module classification from the first segment of the relative path. -/
def moduleOf (relSegs : List (List Char)) : List Char :=
  match relSegs with
  | [] => "unknown".data
  | first :: _ =>
    if first = "client".data || first = "server".data
        || first = "shared".data || first = "src".data
    then first else "unknown".data

/-- `add_error` (column always takes its default 0 in the scanner). -/
def addError (root : List (List Char)) (errors : List Finding)
    (path : List (List Char)) (error_type message : List Char)
    (line : Nat) (severity : List Char) (snippet : List Char) : List Finding :=
  let rel := relativeSegs root path
  errors ++
    [{ file := sepJoin path, relative_path := sepJoin rel, module := moduleOf rel,
       error_type := error_type, severity := severity, message := message,
       line := line, column := 0, code_snippet := snippet }]

/-! ## The line matcher (`_check_patterns`) -/

/-- The body of `_check_patterns` for a single line: skip lines longer
than 500 characters; otherwise test every pattern whose regex compiled,
apply the comment-suppression heuristic, and record a finding with the
category-prefixed rule name and the stripped 150-character snippet. -/
def checkOneLine (root path : List (List Char)) (lineNum : Nat)
    (line : List Char) (patterns : List Pattern) : List Finding :=
  if 500 < line.length then []
  else
    patterns.foldl (fun acc p =>
      match p.compiled with
      | none => acc
      | some re =>
        if reSearch re line then
          let stripped := pyStrip line
          if (startsWithStr stripped ("//".data) || startsWithStr stripped ("*".data))
              && !(markerNames.contains p.name) then acc
          else
            addError root acc path (getCategory p ++ p.name) p.message
              lineNum p.severity ((pyStrip line).take 150)
        else acc) []

/-- `_check_patterns` over all lines, numbering from 1 as `enumerate(lines, 1)` does. -/
def checkLines (root path : List (List Char)) (lineNum : Nat)
    (lines : List (List Char)) (patterns : List Pattern) : List Finding :=
  match lines with
  | [] => []
  | l :: ls =>
    checkOneLine root path lineNum l patterns ++ checkLines root path (lineNum + 1) ls patterns

/-! ## Reading file content

Files are opened with `encoding='utf-8', errors='ignore'`: decoding never
raises, undecodable bytes are dropped.  `decodeIgnore` models this with
the usual maximal-subpart resynchronisation.  A file whose content is an
`Except.error` models `open`/`read` raising. -/

/-- Is `b` a UTF-8 continuation byte? -/
def contOk (b : Nat) : Bool := 128 ≤ b && b ≤ 191

/-- UTF-8 decoding with `errors='ignore'`; fuel is the byte count. -/
def decodeIgnoreAux : Nat → List Nat → List Char
  | 0, _ => []
  | _, [] => []
  | fuel + 1, b :: rest =>
    if b < 128 then Char.ofNat b :: decodeIgnoreAux fuel rest
    else if 194 ≤ b && b ≤ 223 then
      match rest with
      | c1 :: rest' =>
        if contOk c1 then
          Char.ofNat ((b - 192) * 64 + (c1 - 128)) :: decodeIgnoreAux fuel rest'
        else decodeIgnoreAux fuel rest
      | [] => []
    else if 224 ≤ b && b ≤ 239 then
      let lo1 := if b = 224 then 160 else 128
      let hi1 := if b = 237 then 159 else 191
      match rest with
      | c1 :: rest1 =>
        if lo1 ≤ c1 && c1 ≤ hi1 then
          match rest1 with
          | c2 :: rest2 =>
            if contOk c2 then
              Char.ofNat ((b - 224) * 4096 + (c1 - 128) * 64 + (c2 - 128))
                :: decodeIgnoreAux fuel rest2
            else decodeIgnoreAux fuel rest1
          | [] => []
        else decodeIgnoreAux fuel rest
      | [] => []
    else if 240 ≤ b && b ≤ 244 then
      let lo1 := if b = 240 then 144 else 128
      let hi1 := if b = 244 then 143 else 191
      match rest with
      | c1 :: rest1 =>
        if lo1 ≤ c1 && c1 ≤ hi1 then
          match rest1 with
          | c2 :: rest2 =>
            if contOk c2 then
              match rest2 with
              | c3 :: rest3 =>
                if contOk c3 then
                  Char.ofNat ((b - 240) * 262144 + (c1 - 128) * 4096
                      + (c2 - 128) * 64 + (c3 - 128))
                    :: decodeIgnoreAux fuel rest3
                else decodeIgnoreAux fuel rest2
              | [] => []
            else decodeIgnoreAux fuel rest1
          | [] => []
        else decodeIgnoreAux fuel rest
      | [] => []
    else decodeIgnoreAux fuel rest

/-- `f.read()` under `errors='ignore'`. -/
def decodeIgnore (bytes : List Nat) : List Char :=
  decodeIgnoreAux bytes.length bytes

/-! ## Per-file handlers

Each returns the findings it appends and the increment to
`self.scanned_lines`.  `check_typescript_file` / `check_react_file`
differ only in which rule sets run and in which order; on any exception
while reading they append one "File Read Error" finding at line 0. -/

/-- `check_typescript_file` (also the body of `check_javascript_file`). -/
def checkTypescriptFile (root path : List (List Char))
    (content : Except (List Char) (List Nat)) : List Finding × Nat :=
  match content with
  | .error e => (addError root [] path ("File Read Error".data) e 0 ("error".data) [], 0)
  | .ok bytes =>
    let lines := splitCh '\n' (decodeIgnore bytes)
    ( checkLines root path 1 lines typescript_patterns
        ++ checkLines root path 1 lines common_patterns
        ++ checkLines root path 1 lines import_patterns,
      lines.length )

/-- `check_react_file` -/
def checkReactFile (root path : List (List Char))
    (content : Except (List Char) (List Nat)) : List Finding × Nat :=
  match content with
  | .error e => (addError root [] path ("File Read Error".data) e 0 ("error".data) [], 0)
  | .ok bytes =>
    let lines := splitCh '\n' (decodeIgnore bytes)
    ( checkLines root path 1 lines react_patterns
        ++ checkLines root path 1 lines typescript_patterns
        ++ checkLines root path 1 lines common_patterns
        ++ checkLines root path 1 lines import_patterns,
      lines.length )

/-- `check_javascript_file` delegates to the TypeScript handler. -/
def checkJavascriptFile (root path : List (List Char))
    (content : Except (List Char) (List Nat)) : List Finding × Nat :=
  checkTypescriptFile root path content

/-- `Path(file).suffix.lower()`. -/
def extOf (name : List Char) : List Char :=
  let rev := name.reverse
  let extRev := rev.takeWhile (fun c => c ≠ '.')
  if extRev.length = rev.length then []
  else if extRev.length = 0 then []
  else if extRev.length + 1 = rev.length then []
  else '.' :: (extRev.reverse.map Char.toLower)

/-- The `self.file_extensions` dispatch table: `some` for eligible files. -/
def dispatchFile (root path : List (List Char)) (name : List Char)
    (content : Except (List Char) (List Nat)) : Option (List Finding × Nat) :=
  let e := extOf name
  if e = ".ts".data then some (checkTypescriptFile root path content)
  else if e = ".tsx".data then some (checkReactFile root path content)
  else if e = ".js".data then some (checkJavascriptFile root path content)
  else if e = ".jsx".data then some (checkReactFile root path content)
  else none

/-! ## The tree walker (`_scan_directory`)

A file tree is an inductive value.  `os.walk(topdown)` yields the current
directory's files before descending, and the in-place
`dirs[:] = [d for d in dirs if d not in self.skip_dirs]` prunes ignored
directory names before any descent.  `scanDir` returns the findings in
append order together with the increments to `self.file_count` and
`self.scanned_lines`.  (The `PermissionError` handler and the per-file
`except Exception` arm are unreachable in this total model: the handlers
never raise.) -/

inductive FSEntry where
  | file (name : List Char) (content : Except (List Char) (List Nat)) : FSEntry
  | dir (name : List Char) (entries : List FSEntry) : FSEntry

/-- `self.skip_dirs` -/
def skipDirs : List (List Char) :=
  [ "node_modules".data, ".git".data, "__pycache__".data, "venv".data,
    "env".data, ".venv".data, "dist".data, "build".data, ".next".data,
    "target".data, "coverage".data, "test-results".data,
    "playwright-report".data, "drizzle".data, "backup".data, "tmp".data,
    "temp".data, ".cache".data, "out".data, "public".data, "static".data,
    ".turbo".data, ".vercel".data, ".netlify".data ]

/-- The files of one `os.walk` tuple: dispatch each eligible file, count it. -/
def filesPass (root cur : List (List Char)) : List FSEntry → List Finding × Nat × Nat
  | [] => ([], 0, 0)
  | .file nm content :: rest =>
    let r := filesPass root cur rest
    match dispatchFile root (cur ++ [nm]) nm content with
    | some (fs, ln) => (fs ++ r.1, r.2.1 + 1, ln + r.2.2)
    | none => r
  | .dir _ _ :: rest => filesPass root cur rest

mutual

/-- Scan one directory: its own files first, then the kept subdirectories. -/
def scanDir (root cur : List (List Char)) (entries : List FSEntry) :
    List Finding × Nat × Nat :=
  let f := filesPass root cur entries
  let d := dirsPass root cur entries
  (f.1 ++ d.1, f.2.1 + d.2.1, f.2.2 + d.2.2)
termination_by (sizeOf entries, 1)

/-- Recurse into subdirectories whose name is not in `skip_dirs`. -/
def dirsPass (root cur : List (List Char)) : List FSEntry → List Finding × Nat × Nat
  | [] => ([], 0, 0)
  | .file _ _ :: rest => dirsPass root cur rest
  | .dir nm es :: rest =>
    let d := if skipDirs.contains nm then ([], 0, 0)
             else scanDir root (cur ++ [nm]) es
    let r := dirsPass root cur rest
    (d.1 ++ r.1, d.2.1 + r.2.1, d.2.2 + r.2.2)
termination_by l => (sizeOf l, 0)

end

/-! ## Statistics (`generate_statistics`)

`defaultdict(int)` accumulation is modelled by an association list in
first-encounter key order; `sorted(..., key=lambda x: x[1], reverse=True)`
is a stable sort by descending count. -/

/-- One `defaultdict[key] += 1` step. -/
def bump (k : List Char) : List (List Char × Nat) → List (List Char × Nat)
  | [] => [(k, 1)]
  | (k', n) :: rest => if k' = k then (k', n + 1) :: rest else (k', n) :: bump k rest

/-- Counts grouped by a key, keys in first-encounter order. -/
def countsBy (key : Finding → List Char) (l : List Finding) : List (List Char × Nat) :=
  l.foldl (fun m f => bump (key f) m) []

/-- Insert `x` before the first element `y` with `le x y`; on ties this
keeps `x` in front, which together with `stableSort` recursing on the tail
first, makes the sort stable. -/
def insertSorted {α : Type} (le : α → α → Bool) (x : α) : List α → List α
  | [] => [x]
  | y :: ys => if le x y then x :: y :: ys else y :: insertSorted le x ys

/-- A stable sort.  Python's `sorted` is also a stable sort, and any two
stable sorts of the same list under the same total preorder coincide, so
this models `sorted` exactly. -/
def stableSort {α : Type} (le : α → α → Bool) : List α → List α
  | [] => []
  | x :: xs => insertSorted le x (stableSort le xs)

/-- Python's stable `sorted(items, key=lambda x: x[1], reverse=True)`. -/
def sortCountDesc (m : List (List Char × Nat)) : List (List Char × Nat) :=
  stableSort (fun a b => decide (b.2 ≤ a.2)) m

structure ScanStats where
  total_errors : Nat
  by_severity : List (List Char × Nat)
  by_type : List (List Char × Nat)
  by_module : List (List Char × Nat)
  by_file : List (List Char × Nat)
  top_errors : List (List Char × Nat)
  critical_files : List (List Char × Nat)
deriving DecidableEq

/-- `generate_statistics` -/
def generateStatistics (errors : List Finding) : ScanStats :=
  let byType := countsBy (fun f => f.error_type) errors
  let byFile := countsBy (fun f => f.relative_path) errors
  { total_errors := errors.length,
    by_severity := countsBy (fun f => f.severity) errors,
    by_type := byType,
    by_module := countsBy (fun f => f.module) errors,
    by_file := byFile,
    top_errors := (sortCountDesc byType).take 15,
    critical_files := (sortCountDesc byFile).take 10 }

/-! ## Report ordering (`save_to_json`) -/

/-- `{"critical": 0, "error": 1, "warning": 2, "info": 3}.get(severity, 4)` -/
def sevRank (s : List Char) : Nat :=
  if s = "critical".data then 0
  else if s = "error".data then 1
  else if s = "warning".data then 2
  else if s = "info".data then 3
  else 4

/-- The sort key `(severity rank, absolute file path, line)`, as a
lexicographically ordered triple mirroring Python tuple comparison. -/
def sortKey (f : Finding) : Lex (Nat × Lex (List Char × Nat)) :=
  toLex (sevRank f.severity, toLex (f.file, f.line))

/-- The comparison `sorted` uses on findings. -/
def findingLe (a b : Finding) : Bool :=
  decide (sortKey a ≤ sortKey b)

/-- The deterministically ordered `errors` list written to the report. -/
def sortedErrors (l : List Finding) : List Finding :=
  stableSort findingLe l

/-- The persisted report (`save_to_json`); the wall-clock `scan_date` and
the constant tool-identity strings are omitted. -/
structure ScanOutput where
  root_directory : List Char
  total_errors : Nat
  files_scanned : Nat
  lines_scanned : Nat
  statistics : ScanStats
  errors : List Finding
deriving DecidableEq

/-- `save_to_json`: metadata, statistics, and the sorted findings. -/
def saveToJson (root : List (List Char)) (errors : List Finding)
    (fileCount linesCount : Nat) : ScanOutput :=
  { root_directory := sepJoin root, total_errors := errors.length,
    files_scanned := fileCount, lines_scanned := linesCount,
    statistics := generateStatistics errors, errors := sortedErrors errors }

/-! ## Proof-support definitions -/

/-- The single finding `_check_patterns` appends for one pattern on one
line, if any; `checkOneLine` is proved equal to a `filterMap` of this. -/
def lineFinding (root path : List (List Char)) (lineNum : Nat)
    (line : List Char) (p : Pattern) : Option Finding :=
  match p.compiled with
  | none => none
  | some re =>
    if reSearch re line then
      let stripped := pyStrip line
      if (startsWithStr stripped ("//".data) || startsWithStr stripped ("*".data))
          && !(markerNames.contains p.name) then none
      else
        some { file := sepJoin path, relative_path := sepJoin (relativeSegs root path),
               module := moduleOf (relativeSegs root path),
               error_type := getCategory p ++ p.name, severity := p.severity,
               message := p.message, line := lineNum, column := 0,
               code_snippet := (pyStrip line).take 150 }
    else none

/-- The synthetic finding recorded for an unreadable file. -/
def readErrorFinding (root path : List (List Char)) (e : List Char) : Finding :=
  { file := sepJoin path, relative_path := sepJoin (relativeSegs root path),
    module := moduleOf (relativeSegs root path),
    error_type := "File Read Error".data, severity := "error".data,
    message := e, line := 0, column := 0, code_snippet := [] }

/-- Componentwise combination of two walker results. -/
def combineScan (x y : List Finding × Nat × Nat) : List Finding × Nat × Nat :=
  (x.1 ++ y.1, x.2.1 + y.2.1, x.2.2 + y.2.2)

/-- ASCII text as file bytes. -/
def asciiBytes (s : List Char) : List Nat := s.map Char.toNat

/-- The extensions in `self.file_extensions`. -/
def handledExts : List (List Char) :=
  [".ts".data, ".tsx".data, ".js".data, ".jsx".data]

/-- Count held by an association list, 0 when the key is absent. -/
def lookupCount (k : List Char) : List (List Char × Nat) → Nat
  | [] => 0
  | (k', n) :: rest => if k' = k then n else lookupCount k rest

/-! ## Helper lemmas -/

/-- `content.split(sep)` has one more element than `sep` has occurrences. -/
theorem splitCh_length (c : Char) (l : List Char) :
    (splitCh c l).length = l.count c + 1 := by
  induction l with
  | nil => simp [splitCh]
  | cons d ds ih =>
    by_cases h : d = c
    · subst h
      simp [splitCh, ih, List.count_cons]
    · rw [splitCh, if_neg h]
      cases hs : splitCh c ds with
      | nil => rw [hs] at ih; simp at ih
      | cons r rs =>
        rw [hs] at ih
        simp only [List.length_cons] at ih ⊢
        rw [List.count_cons, if_neg (by simpa using h)]
        omega

/-- The fold in `_check_patterns` appends exactly the `lineFinding` results. -/
theorem checkOneLine_foldl_eq (root path : List (List Char)) (n : Nat)
    (line : List Char) :
    ∀ (qs : List Pattern) (acc : List Finding),
      qs.foldl (fun acc p =>
        match p.compiled with
        | none => acc
        | some re =>
          if reSearch re line then
            let stripped := pyStrip line
            if (startsWithStr stripped ("//".data) || startsWithStr stripped ("*".data))
                && !(markerNames.contains p.name) then acc
            else
              addError root acc path (getCategory p ++ p.name) p.message
                n p.severity ((pyStrip line).take 150)
          else acc) acc
      = acc ++ qs.filterMap (lineFinding root path n line) := by
  intro qs
  induction qs with
  | nil => intro acc; simp
  | cons p qs ih =>
    intro acc
    rw [List.foldl_cons, ih, List.filterMap_cons]
    cases hc : p.compiled with
    | none => simp [lineFinding, hc]
    | some re =>
      simp only [lineFinding, hc]
      split
      · split
        · simp
        · simp [addError]
      · simp

/-- `checkOneLine` as a `filterMap`. -/
theorem checkOneLine_eq (root path : List (List Char)) (n : Nat) (line : List Char)
    (ps : List Pattern) :
    checkOneLine root path n line ps =
      if 500 < line.length then []
      else ps.filterMap (lineFinding root path n line) := by
  unfold checkOneLine
  split
  · rfl
  · simpa using checkOneLine_foldl_eq root path n line ps []

/-- Fields of a finding produced for a pattern match on one line. -/
theorem lineFinding_some {root path : List (List Char)} {n : Nat} {line : List Char}
    {p : Pattern} {f : Finding} (h : lineFinding root path n line p = some f) :
    f.line = n ∧ f.code_snippet = (pyStrip line).take 150 ∧
      f.error_type = getCategory p ++ p.name ∧ f.severity = p.severity ∧
      f.message = p.message := by
  unfold lineFinding at h
  cases hc : p.compiled with
  | none => rw [hc] at h; simp at h
  | some re =>
    rw [hc] at h
    simp at h
    obtain ⟨h1, h2, rfl⟩ := h
    simp

/-- On a line whose stripped form starts with `//` or `*`, only the marker
rules can yield a finding. -/
theorem lineFinding_comment {root path : List (List Char)} {n : Nat}
    {line : List Char} {p : Pattern} {f : Finding}
    (hc : startsWithStr (pyStrip line) ("//".data) = true ∨
      startsWithStr (pyStrip line) ("*".data) = true)
    (h : lineFinding root path n line p = some f) :
    p.name ∈ markerNames := by
  unfold lineFinding at h
  cases hcc : p.compiled with
  | none => rw [hcc] at h; simp at h
  | some re =>
    rw [hcc] at h
    simp at h
    exact h.2.1 (by simpa using hc)

/-- Every finding of `checkLines` comes from `checkOneLine` on some line
number at least the starting one. -/
theorem checkLines_mem {root path : List (List Char)} {k : Nat}
    {lines : List (List Char)} {ps : List Pattern} {f : Finding}
    (hf : f ∈ checkLines root path k lines ps) :
    ∃ j line', k ≤ j ∧ f ∈ checkOneLine root path j line' ps := by
  induction lines generalizing k with
  | nil => simp [checkLines] at hf
  | cons l ls ih =>
    rw [checkLines, List.mem_append] at hf
    rcases hf with h | h
    · exact ⟨k, l, le_refl k, h⟩
    · obtain ⟨j, line', hj, hm⟩ := ih h
      exact ⟨j, line', by omega, hm⟩

/-- Findings of `checkOneLine` factor through `lineFinding`. -/
theorem checkOneLine_mem {root path : List (List Char)} {n : Nat}
    {line : List Char} {ps : List Pattern} {f : Finding}
    (hf : f ∈ checkOneLine root path n line ps) :
    ∃ p ∈ ps, lineFinding root path n line p = some f := by
  rw [checkOneLine_eq] at hf
  split at hf
  · simp at hf
  · exact List.mem_filterMap.mp hf

/-- A category-prefixed rule identifier never collides with the synthetic
"File Read Error" type: every category prefix starts with a different letter. -/
theorem error_type_ne_read_error (p : Pattern) (nm : List Char) :
    getCategory p ++ nm ≠ "File Read Error".data := by
  unfold getCategory
  split
  · simp
  · split
    · simp
    · split
      · simp
      · simp

/-- Every finding `_check_patterns` emits has a 1-based line, a snippet of
at most 150 characters, and a rule-identifier type. -/
theorem checkLines_prop {root path : List (List Char)} {k : Nat}
    {lines : List (List Char)} {ps : List Pattern} {f : Finding} (hk : 1 ≤ k)
    (hf : f ∈ checkLines root path k lines ps) :
    1 ≤ f.line ∧ f.code_snippet.length ≤ 150 ∧
      f.error_type ≠ "File Read Error".data := by
  obtain ⟨j, line', hj, hm⟩ := checkLines_mem hf
  obtain ⟨p, hp, hlf⟩ := checkOneLine_mem hm
  obtain ⟨hl, hsn, het, _, _⟩ := lineFinding_some hlf
  refine ⟨by omega, ?_, ?_⟩
  · rw [hsn, List.length_take]
    omega
  · rw [het]
    exact error_type_ne_read_error p p.name

/-- The TypeScript handler on an unreadable file: one synthetic finding,
no lines counted. -/
theorem checkTypescriptFile_error (root path : List (List Char)) (e : List Char) :
    checkTypescriptFile root path (.error e) = ([readErrorFinding root path e], 0) := rfl

/-- The React handler on an unreadable file. -/
theorem checkReactFile_error (root path : List (List Char)) (e : List Char) :
    checkReactFile root path (.error e) = ([readErrorFinding root path e], 0) := rfl

/-- Findings of the TypeScript handler on readable content. -/
theorem checkTypescriptFile_ok_prop {root path : List (List Char)}
    {bytes : List Nat} {f : Finding}
    (hf : f ∈ (checkTypescriptFile root path (.ok bytes)).1) :
    1 ≤ f.line ∧ f.code_snippet.length ≤ 150 ∧
      f.error_type ≠ "File Read Error".data := by
  simp only [checkTypescriptFile, List.mem_append] at hf
  rcases hf with (h | h) | h <;> exact checkLines_prop (le_refl 1) h

/-- Findings of the React handler on readable content. -/
theorem checkReactFile_ok_prop {root path : List (List Char)}
    {bytes : List Nat} {f : Finding}
    (hf : f ∈ (checkReactFile root path (.ok bytes)).1) :
    1 ≤ f.line ∧ f.code_snippet.length ≤ 150 ∧
      f.error_type ≠ "File Read Error".data := by
  simp only [checkReactFile, List.mem_append] at hf
  rcases hf with ((h | h) | h) | h <;> exact checkLines_prop (le_refl 1) h

/-- Invariant of every finding any handler can emit. -/
theorem checkTypescriptFile_mem_prop {root path : List (List Char)}
    {content : Except (List Char) (List Nat)} {f : Finding}
    (hf : f ∈ (checkTypescriptFile root path content).1) :
    f.code_snippet.length ≤ 150 ∧
      (f.error_type = "File Read Error".data → f.line = 0) ∧
      (f.error_type ≠ "File Read Error".data → 1 ≤ f.line) := by
  cases content with
  | error e =>
    rw [checkTypescriptFile_error] at hf
    simp at hf
    subst hf
    simp [readErrorFinding]
  | ok bytes =>
    obtain ⟨h1, h2, h3⟩ := checkTypescriptFile_ok_prop hf
    exact ⟨h2, fun hc => absurd hc h3, fun _ => h1⟩

/-- Invariant of every finding the React handler can emit. -/
theorem checkReactFile_mem_prop {root path : List (List Char)}
    {content : Except (List Char) (List Nat)} {f : Finding}
    (hf : f ∈ (checkReactFile root path content).1) :
    f.code_snippet.length ≤ 150 ∧
      (f.error_type = "File Read Error".data → f.line = 0) ∧
      (f.error_type ≠ "File Read Error".data → 1 ≤ f.line) := by
  cases content with
  | error e =>
    rw [checkReactFile_error] at hf
    simp at hf
    subst hf
    simp [readErrorFinding]
  | ok bytes =>
    obtain ⟨h1, h2, h3⟩ := checkReactFile_ok_prop hf
    exact ⟨h2, fun hc => absurd hc h3, fun _ => h1⟩

/-- Invariant of every finding `dispatchFile` can emit. -/
theorem dispatchFile_mem_prop {root path : List (List Char)} {nm : List Char}
    {content : Except (List Char) (List Nat)} {fsln : List Finding × Nat}
    {f : Finding} (hd : dispatchFile root path nm content = some fsln)
    (hf : f ∈ fsln.1) :
    f.code_snippet.length ≤ 150 ∧
      (f.error_type = "File Read Error".data → f.line = 0) ∧
      (f.error_type ≠ "File Read Error".data → 1 ≤ f.line) := by
  dsimp only [dispatchFile] at hd
  split_ifs at hd <;> (obtain rfl := Option.some.inj hd)
  · exact checkTypescriptFile_mem_prop hf
  · exact checkReactFile_mem_prop hf
  · exact checkTypescriptFile_mem_prop hf
  · exact checkReactFile_mem_prop hf

/-- Invariant of every finding the files pass can emit. -/
theorem filesPass_mem_prop {root cur : List (List Char)} {entries : List FSEntry}
    {f : Finding} (hf : f ∈ (filesPass root cur entries).1) :
    f.code_snippet.length ≤ 150 ∧
      (f.error_type = "File Read Error".data → f.line = 0) ∧
      (f.error_type ≠ "File Read Error".data → 1 ≤ f.line) := by
  induction entries with
  | nil => simp [filesPass] at hf
  | cons e rest ih =>
    cases e with
    | file nm content =>
      cases hd : dispatchFile root (cur ++ [nm]) nm content with
      | none =>
        simp only [filesPass, hd] at hf
        exact ih hf
      | some fsln =>
        simp only [filesPass, hd] at hf
        rcases List.mem_append.mp hf with h | h
        · exact dispatchFile_mem_prop hd h
        · exact ih h
    | dir nm es =>
      simp only [filesPass] at hf
      exact ih hf

/-- Invariant of every finding the recursive directory pass can emit. -/
theorem dirsPass_mem_prop :
    ∀ (N : Nat) (entries : List FSEntry), sizeOf entries < N →
      ∀ (root cur : List (List Char)) (f : Finding),
        f ∈ (dirsPass root cur entries).1 →
        f.code_snippet.length ≤ 150 ∧
          (f.error_type = "File Read Error".data → f.line = 0) ∧
          (f.error_type ≠ "File Read Error".data → 1 ≤ f.line) := by
  intro N
  induction N with
  | zero => intro entries h; exact absurd h (Nat.not_lt_zero _)
  | succ N ih =>
    intro entries h root cur f hf
    cases entries with
    | nil => simp [dirsPass] at hf
    | cons e rest =>
      cases e with
      | file nm c =>
        simp only [dirsPass] at hf
        refine ih rest ?_ root cur f hf
        simp only [List.cons.sizeOf_spec] at h
        omega
      | dir nm es =>
        simp only [dirsPass] at hf
        simp only [List.cons.sizeOf_spec, FSEntry.dir.sizeOf_spec] at h
        by_cases hskip : skipDirs.contains nm = true
        · rw [if_pos hskip] at hf
          simp only [List.nil_append] at hf
          exact ih rest (by omega) root cur f hf
        · rw [if_neg hskip] at hf
          rcases List.mem_append.mp hf with h1 | h1
          · simp only [scanDir] at h1
            rcases List.mem_append.mp h1 with h2 | h2
            · exact filesPass_mem_prop h2
            · exact ih es (by omega) root (cur ++ [nm]) f h2
          · exact ih rest (by omega) root cur f h1

/-- Invariant of every finding the whole scan records: the snippet is at
most 150 characters and the line number is 1-based except for the
synthetic read-failure findings. -/
theorem scanDir_mem_prop {root cur : List (List Char)} {entries : List FSEntry}
    {f : Finding} (hf : f ∈ (scanDir root cur entries).1) :
    f.code_snippet.length ≤ 150 ∧
      (f.error_type = "File Read Error".data → f.line = 0) ∧
      (f.error_type ≠ "File Read Error".data → 1 ≤ f.line) := by
  simp only [scanDir] at hf
  rcases List.mem_append.mp hf with h | h
  · exact filesPass_mem_prop h
  · exact dirsPass_mem_prop (sizeOf entries + 1) entries (by omega) root cur f h

/-- The files pass distributes over concatenation of entry lists. -/
theorem filesPass_append (root cur : List (List Char)) (a b : List FSEntry) :
    filesPass root cur (a ++ b) =
      combineScan (filesPass root cur a) (filesPass root cur b) := by
  induction a with
  | nil => simp [filesPass, combineScan]
  | cons e rest ih =>
    cases e with
    | file nm content =>
      cases hd : dispatchFile root (cur ++ [nm]) nm content with
      | none =>
        simp only [List.cons_append, filesPass, hd, List.append_eq, ih]
      | some fsln =>
        simp only [List.cons_append, filesPass, hd, List.append_eq, ih, combineScan]
        refine Prod.ext ?_ (Prod.ext ?_ ?_) <;> simp <;> omega
    | dir nm es =>
      simp only [List.cons_append, filesPass, List.append_eq, ih]

/-- The directory pass distributes over concatenation of entry lists. -/
theorem dirsPass_append (root cur : List (List Char)) (a b : List FSEntry) :
    dirsPass root cur (a ++ b) =
      combineScan (dirsPass root cur a) (dirsPass root cur b) := by
  induction a with
  | nil => simp [dirsPass, combineScan]
  | cons e rest ih =>
    cases e with
    | file nm content =>
      simp only [List.cons_append, dirsPass, List.append_eq, ih]
    | dir nm es =>
      simp only [List.cons_append, dirsPass, List.append_eq, ih, combineScan]
      refine Prod.ext ?_ (Prod.ext ?_ ?_) <;> simp <;> omega

/-- A subdirectory with an ignored name contributes nothing to the
directory pass. -/
theorem dirsPass_skip (root cur : List (List Char)) (nm : List Char)
    (es post : List FSEntry) (h : skipDirs.contains nm = true) :
    dirsPass root cur (.dir nm es :: post) = dirsPass root cur post := by
  simp only [dirsPass, if_pos h]
  refine Prod.ext ?_ (Prod.ext ?_ ?_) <;> simp

/-- Dispatching an eligible unreadable file yields exactly the synthetic
read-failure finding and no scanned lines. -/
theorem dispatchFile_error {root path : List (List Char)} {nm : List Char}
    (e : List Char) (h : extOf nm ∈ handledExts) :
    dispatchFile root path nm (.error e) =
      some ([readErrorFinding root path e], 0) := by
  simp only [handledExts, List.mem_cons, List.not_mem_nil, or_false] at h
  dsimp only [dispatchFile]
  rcases h with h | h | h | h
  · rw [if_pos h, checkTypescriptFile_error]
  · have h1 : ¬ (extOf nm = ".ts".data) := by rw [h]; decide
    rw [if_neg h1, if_pos h, checkReactFile_error]
  · have h1 : ¬ (extOf nm = ".ts".data) := by rw [h]; decide
    have h2 : ¬ (extOf nm = ".tsx".data) := by rw [h]; decide
    rw [if_neg h1, if_neg h2, if_pos h]
    rw [show checkJavascriptFile root path (.error e)
        = ([readErrorFinding root path e], 0) from rfl]
  · have h1 : ¬ (extOf nm = ".ts".data) := by rw [h]; decide
    have h2 : ¬ (extOf nm = ".tsx".data) := by rw [h]; decide
    have h3 : ¬ (extOf nm = ".js".data) := by rw [h]; decide
    rw [if_neg h1, if_neg h2, if_neg h3, if_pos h, checkReactFile_error]

/-! ## Claim theorems -/

/-- C5: a directory whose name is in the configured ignore set is pruned
before descending: the scan of a tree containing it (its files, and its
whole subtree, at any position) equals the scan of the tree with that
directory removed, so no file under it is dispatched and neither the
findings nor `files_scanned`/`lines_scanned` include the subtree. -/
theorem C5_walker_prunes_ignored_dirs (root cur : List (List Char))
    (pre post : List FSEntry) (nm : List Char) (es : List FSEntry)
    (h : skipDirs.contains nm = true) :
    scanDir root cur (pre ++ FSEntry.dir nm es :: post) =
      scanDir root cur (pre ++ post) := by
  have hf : filesPass root cur (pre ++ FSEntry.dir nm es :: post)
      = filesPass root cur (pre ++ post) := by
    rw [filesPass_append, filesPass_append]
    congr 1
  have hd : dirsPass root cur (pre ++ FSEntry.dir nm es :: post)
      = dirsPass root cur (pre ++ post) := by
    rw [dirsPass_append, dirsPass_append, dirsPass_skip root cur nm es post h]
  simp only [scanDir, hf, hd]

/-- C7: an eligible file whose read raises records exactly one synthetic
finding — at line 0, error type "File Read Error", severity "error",
carrying the exception message — and the rest of the scan is exactly what
it would be with the unreadable file absent: the other findings are
unchanged, `files_scanned` still counts the file, `lines_scanned` gains
nothing. -/
theorem C7_read_failure_isolated (root cur : List (List Char))
    (pre post : List FSEntry) (nm e : List Char)
    (h : extOf nm ∈ handledExts) :
    scanDir root cur (pre ++ FSEntry.file nm (.error e) :: post) =
      ( (filesPass root cur pre).1
          ++ readErrorFinding root (cur ++ [nm]) e
            :: ((filesPass root cur post).1 ++ (dirsPass root cur (pre ++ post)).1),
        (scanDir root cur (pre ++ post)).2.1 + 1,
        (scanDir root cur (pre ++ post)).2.2 )
    ∧ (scanDir root cur (pre ++ post)).1
        = (filesPass root cur pre).1
            ++ ((filesPass root cur post).1 ++ (dirsPass root cur (pre ++ post)).1)
    ∧ (readErrorFinding root (cur ++ [nm]) e).line = 0
    ∧ (readErrorFinding root (cur ++ [nm]) e).error_type = "File Read Error".data
    ∧ (readErrorFinding root (cur ++ [nm]) e).severity = "error".data
    ∧ (readErrorFinding root (cur ++ [nm]) e).message = e := by
  have hfp : filesPass root cur (FSEntry.file nm (.error e) :: post)
      = ([readErrorFinding root (cur ++ [nm]) e] ++ (filesPass root cur post).1,
         (filesPass root cur post).2.1 + 1, 0 + (filesPass root cur post).2.2) := by
    simp only [filesPass, dispatchFile_error e h]
  have hd1 : dirsPass root cur (pre ++ FSEntry.file nm (.error e) :: post)
      = dirsPass root cur (pre ++ post) := by
    rw [dirsPass_append, dirsPass_append]
    congr 1
    simp only [dirsPass]
  refine ⟨?_, ?_, rfl, rfl, rfl, rfl⟩
  · rw [show pre ++ FSEntry.file nm (.error e) :: post
        = pre ++ (FSEntry.file nm (.error e) :: post) from rfl]
    simp only [scanDir, filesPass_append, hfp, hd1, combineScan]
    refine Prod.ext ?_ (Prod.ext ?_ ?_) <;> (simp [List.append_assoc]; try omega)
  · simp only [scanDir, filesPass_append, combineScan]
    simp [List.append_assoc]

/-- C1: on a line whose stripped form starts with a comment marker (`//`,
or `*` for block-comment continuation lines), only the marker rules
TODO/FIXME/BUG/HACK/XXX can produce a finding; concretely, a one-line
`.ts` file `// TODO fix this` yields exactly the one TODO finding, and
`// const any = 5 as any` yields no finding from the `any_usage` rule. -/
theorem C1_comment_suppression :
    (∀ (root path : List (List Char)) (n : Nat) (line : List Char)
        (ps : List Pattern) (f : Finding),
      (startsWithStr (pyStrip line) ("//".data) = true ∨
        startsWithStr (pyStrip line) ("*".data) = true) →
      f ∈ checkOneLine root path n line ps →
      ∃ p ∈ ps, p.name ∈ markerNames ∧ f.error_type = getCategory p ++ p.name)
    ∧ (checkTypescriptFile (["proj".data]) (["proj".data, "src".data, "a.ts".data])
        (.ok (asciiBytes ("// TODO fix this".data)))).1
        = [{ file := "proj/src/a.ts".data, relative_path := "src/a.ts".data,
             module := "src".data, error_type := "Code Quality - TODO".data,
             severity := "warning".data, message := "TODO comment".data,
             line := 1, column := 0, code_snippet := "// TODO fix this".data }]
    ∧ ((checkTypescriptFile (["proj".data]) (["proj".data, "src".data, "a.ts".data])
        (.ok (asciiBytes ("// const any = 5 as any".data)))).1.filter
          (fun f => f.error_type = "TypeScript - any_usage".data)) = [] := by
  refine ⟨?_, by decide, by decide⟩
  intro root path n line ps f hc hf
  obtain ⟨p, hp, hlf⟩ := checkOneLine_mem hf
  obtain ⟨_, _, het, _, _⟩ := lineFinding_some hlf
  exact ⟨p, hp, lineFinding_comment hc hlf, het⟩

/-- C2 as frozen is false: a file that cannot be read produces a synthetic
finding at line 0, so not every recorded finding has `line ≥ 1`. -/
theorem C2_counterexample :
    ¬ (∀ f ∈ (scanDir (["r".data]) (["r".data])
        [FSEntry.file ("a.ts".data) (.error ("boom".data))]).1,
        1 ≤ f.line ∧ f.code_snippet.length ≤ 150) := by
  simp only [scanDir, dirsPass]
  decide

/-- C2 (amended): every finding the scan records has a snippet of at most
150 characters; the line number is at least 1 for every finding except the
synthetic "File Read Error" findings, which sit exactly at line 0. -/
theorem C2_amended_finding_bounds (root cur : List (List Char))
    (entries : List FSEntry) (f : Finding)
    (hf : f ∈ (scanDir root cur entries).1) :
    f.code_snippet.length ≤ 150 ∧
      (f.error_type = "File Read Error".data → f.line = 0) ∧
      (f.error_type ≠ "File Read Error".data → 1 ≤ f.line) :=
  scanDir_mem_prop hf

set_option maxRecDepth 16384 in
/-- C4: a line longer than 500 characters is never matched — no finding is
produced for it whatever the rules — while the file containing it is still
scanned and counted; concretely a one-file tree whose single 608-character
line contains `eval(` yields no findings but `files_scanned = 1` and
`lines_scanned = 1`. -/
theorem C4_long_lines_skipped :
    (∀ (root path : List (List Char)) (n : Nat) (line : List Char)
        (ps : List Pattern), 500 < line.length →
      checkOneLine root path n line ps = [])
    ∧ scanDir (["r".data]) (["r".data])
        [FSEntry.file ("a.ts".data)
          (.ok (asciiBytes (("eval(x);".data) ++ List.replicate 600 'x')))]
        = ([], 1, 1) := by
  refine ⟨?_, by simp only [scanDir, dirsPass]; decide⟩
  intro root path n line ps h
  unfold checkOneLine
  rw [if_pos h]

/-- Inserting permutes the element onto the list. -/
theorem insertSorted_perm {α : Type} (le : α → α → Bool) (x : α) (l : List α) :
    (insertSorted le x l).Perm (x :: l) := by
  induction l with
  | nil => simp [insertSorted]
  | cons y ys ih =>
    rw [insertSorted]
    split
    · exact List.Perm.refl _
    · exact (List.Perm.cons y ih).trans (List.Perm.swap x y ys)

/-- The stable sort permutes its input. -/
theorem stableSort_perm {α : Type} (le : α → α → Bool) (l : List α) :
    (stableSort le l).Perm l := by
  induction l with
  | nil => simp [stableSort]
  | cons x xs ih =>
    rw [stableSort]
    exact (insertSorted_perm le x (stableSort le xs)).trans (List.Perm.cons x ih)

/-- Inserting into a sorted list keeps it sorted, for a total transitive
comparison. -/
theorem insertSorted_pairwise {α : Type} {le : α → α → Bool}
    (htrans : ∀ a b c, le a b = true → le b c = true → le a c = true)
    (htot : ∀ a b, (le a b || le b a) = true) (x : α) {l : List α}
    (h : List.Pairwise (fun a b => le a b = true) l) :
    List.Pairwise (fun a b => le a b = true) (insertSorted le x l) := by
  induction l with
  | nil => simp [insertSorted]
  | cons y ys ih =>
    rw [insertSorted]
    obtain ⟨hy, hys⟩ := List.pairwise_cons.mp h
    split
    · rename_i hxy
      refine List.pairwise_cons.mpr ⟨?_, h⟩
      intro z hz
      rcases List.mem_cons.mp hz with rfl | hz
      · exact hxy
      · exact htrans x y z hxy (hy z hz)
    · rename_i hxy
      have hyx : le y x = true := by
        rcases (Bool.or_eq_true _ _).mp (htot x y) with h' | h'
        · exact absurd h' hxy
        · exact h'
      refine List.pairwise_cons.mpr ⟨?_, ih hys⟩
      intro z hz
      rcases List.mem_cons.mp ((insertSorted_perm le x ys).mem_iff.mp hz) with rfl | hz
      · exact hyx
      · exact hy z hz

/-- The stable sort is sorted, for a total transitive comparison. -/
theorem stableSort_pairwise {α : Type} {le : α → α → Bool}
    (htrans : ∀ a b c, le a b = true → le b c = true → le a c = true)
    (htot : ∀ a b, (le a b || le b a) = true) (l : List α) :
    List.Pairwise (fun a b => le a b = true) (stableSort le l) := by
  induction l with
  | nil => simp [stableSort]
  | cons x xs ih =>
    rw [stableSort]
    exact insertSorted_pairwise htrans htot x ih

/-- Inserting an element the filter rejects leaves the filter unchanged. -/
theorem insertSorted_filter_neg {α : Type} {le : α → α → Bool} {p : α → Bool}
    {x : α} (hx : p x = false) (l : List α) :
    (insertSorted le x l).filter p = l.filter p := by
  induction l with
  | nil => simp [insertSorted, hx]
  | cons y ys ih =>
    rw [insertSorted]
    split
    · simp [List.filter_cons, hx]
    · simp [List.filter_cons, ih]

/-- An element the filter keeps, inserted before everything the filter
keeps, heads the filtered result. -/
theorem insertSorted_filter_pos {α : Type} {le : α → α → Bool} {p : α → Bool}
    {x : α} (hx : p x = true) (hbef : ∀ z, p z = true → le x z = true)
    (l : List α) :
    (insertSorted le x l).filter p = x :: l.filter p := by
  induction l with
  | nil => simp [insertSorted, hx]
  | cons y ys ih =>
    rw [insertSorted]
    split
    · simp [List.filter_cons, hx]
    · rename_i hxy
      have hy : p y = false := by
        cases hpy : p y
        · rfl
        · exact absurd (hbef y hpy) (by simp_all)
      simp [List.filter_cons, hy, ih]

/-- Stability: on any class of pairwise-tied elements the sort preserves
the original order. -/
theorem stableSort_filter {α : Type} (le : α → α → Bool) (p : α → Bool)
    (hle : ∀ a b, p a = true → p b = true → le a b = true) (l : List α) :
    (stableSort le l).filter p = l.filter p := by
  induction l with
  | nil => simp [stableSort]
  | cons x xs ih =>
    rw [stableSort]
    cases hx : p x
    · rw [insertSorted_filter_neg hx]
      simp [List.filter_cons, hx, ih]
    · rw [insertSorted_filter_pos hx (fun z hz => hle x z hx hz)]
      simp [List.filter_cons, hx, ih]

/-- The report comparison is transitive. -/
theorem findingLe_trans (a b c : Finding) (h1 : findingLe a b = true)
    (h2 : findingLe b c = true) : findingLe a c = true := by
  simp only [findingLe, decide_eq_true_eq] at h1 h2 ⊢
  exact le_trans h1 h2

/-- The report comparison is total. -/
theorem findingLe_total (a b : Finding) : (findingLe a b || findingLe b a) = true := by
  simp only [findingLe, Bool.or_eq_true, decide_eq_true_eq]
  exact le_total _ _

/-- C3: the persisted findings list is the input findings stably sorted by
the key (severity rank, absolute file path, line): it is a permutation of
the findings, pairwise non-decreasing in that lexicographic key (so a
finding of strictly higher-priority severity always precedes one of lower
priority, with ties falling through to file path then line number),
deterministic, and stable (tied findings keep their original order). -/
theorem C3_output_ordering :
    (∀ (root : List (List Char)) (errors : List Finding) (fc lc : Nat),
        (saveToJson root errors fc lc).errors = sortedErrors errors)
    ∧ (∀ l : List Finding, (sortedErrors l).Perm l)
    ∧ (∀ l : List Finding,
        List.Pairwise (fun a b => sortKey a ≤ sortKey b) (sortedErrors l))
    ∧ (∀ (l : List Finding) (i j : Fin (sortedErrors l).length), i < j →
        sevRank (((sortedErrors l).get i).severity)
          ≤ sevRank (((sortedErrors l).get j).severity))
    ∧ (∀ (l : List Finding) (k : Lex (Nat × Lex (List Char × Nat))),
        (sortedErrors l).filter (fun f => sortKey f = k)
          = l.filter (fun f => sortKey f = k))
    ∧ (∀ l₁ l₂ : List Finding, l₁ = l₂ → sortedErrors l₁ = sortedErrors l₂) := by
  have hpair : ∀ l : List Finding,
      List.Pairwise (fun a b => sortKey a ≤ sortKey b) (sortedErrors l) := by
    intro l
    have := stableSort_pairwise findingLe_trans findingLe_total l
    exact this.imp (fun h => by
      simpa only [findingLe, decide_eq_true_eq] using h)
  refine ⟨fun _ _ _ _ => rfl, fun l => stableSort_perm findingLe l, hpair,
    ?_, ?_, fun l₁ l₂ h => by rw [h]⟩
  · intro l i j hij
    have h := List.pairwise_iff_get.mp (hpair l) i j hij
    rcases (Prod.Lex.le_iff _ _).mp h with h' | ⟨h1, _⟩
    · exact le_of_lt h'
    · exact le_of_eq h1
  · intro l k
    apply stableSort_filter
    intro a b ha hb
    simp only [decide_eq_true_eq] at ha hb
    simp only [findingLe, decide_eq_true_eq]
    rw [ha, hb]

/-- One `defaultdict` increment changes exactly the bumped key's count. -/
theorem lookupCount_bump (k j : List Char) (m : List (List Char × Nat)) :
    lookupCount k (bump j m) = lookupCount k m + (if j = k then 1 else 0) := by
  induction m with
  | nil =>
    by_cases h : j = k <;> simp [bump, lookupCount, h]
  | cons e rest ih =>
    obtain ⟨k', n⟩ := e
    by_cases h : k' = j
    · subst h
      by_cases h2 : k' = k <;> simp [bump, lookupCount, h2]
    · by_cases h2 : k' = k
      · subst h2
        have hj : j ≠ k' := fun he => h he.symm
        simp [bump, lookupCount, h, hj]
      · simp [bump, lookupCount, h, h2, ih]

/-- The association list built by the statistics fold holds, for every
key, the number of findings with that key. -/
theorem lookupCount_countsBy (key : Finding → List Char) (l : List Finding)
    (k : List Char) :
    lookupCount k (countsBy key l) = l.countP (fun f => key f = k) := by
  suffices h : ∀ m, lookupCount k (l.foldl (fun m f => bump (key f) m) m)
      = lookupCount k m + l.countP (fun f => key f = k) by
    simpa [countsBy, lookupCount] using h []
  induction l with
  | nil => intro m; simp
  | cons f fs ih =>
    intro m
    rw [List.foldl_cons, ih, lookupCount_bump, List.countP_cons]
    by_cases h : key f = k <;> (simp [h]; try omega)

/-- C8: `generate_statistics` is a pure deterministic function of the
findings list: equal inputs give equal statistics; the total is the list
length; the four groupings hold exactly the count of findings per
severity, rule identifier (category label concatenated with rule name,
the `error_type` field), module, and file; `top_errors`/`critical_files`
are the first 15 (resp. 10) entries of the stable descending-by-count
sort of the corresponding grouping, hence pairwise non-increasing in
count and with ties kept in encounter order. -/
theorem C8_statistics_pure :
    (∀ l₁ l₂ : List Finding, l₁ = l₂ →
        generateStatistics l₁ = generateStatistics l₂)
    ∧ (∀ l : List Finding, (generateStatistics l).total_errors = l.length)
    ∧ (∀ (l : List Finding) (k : List Char),
        lookupCount k (generateStatistics l).by_severity
          = l.countP (fun f => f.severity = k))
    ∧ (∀ (l : List Finding) (k : List Char),
        lookupCount k (generateStatistics l).by_type
          = l.countP (fun f => f.error_type = k))
    ∧ (∀ (l : List Finding) (k : List Char),
        lookupCount k (generateStatistics l).by_module
          = l.countP (fun f => f.module = k))
    ∧ (∀ (l : List Finding) (k : List Char),
        lookupCount k (generateStatistics l).by_file
          = l.countP (fun f => f.relative_path = k))
    ∧ (∀ l : List Finding, (generateStatistics l).top_errors
          = (sortCountDesc (countsBy (fun f => f.error_type) l)).take 15)
    ∧ (∀ l : List Finding, (generateStatistics l).critical_files
          = (sortCountDesc (countsBy (fun f => f.relative_path) l)).take 10)
    ∧ (∀ l : List Finding, List.Pairwise (fun a b => b.2 ≤ a.2)
          (generateStatistics l).top_errors)
    ∧ (∀ l : List Finding, List.Pairwise (fun a b => b.2 ≤ a.2)
          (generateStatistics l).critical_files)
    ∧ (∀ (m : List (List Char × Nat)) (n : Nat),
        (sortCountDesc m).filter (fun e => e.2 = n)
          = m.filter (fun e => e.2 = n)) := by
  have hsorted : ∀ m : List (List Char × Nat),
      List.Pairwise (fun (a b : List Char × Nat) => b.2 ≤ a.2) (sortCountDesc m) := by
    intro m
    have := @stableSort_pairwise (List Char × Nat)
      (fun a b => decide (b.2 ≤ a.2))
      (fun a b c h1 h2 => by simp only [decide_eq_true_eq] at *; omega)
      (fun a b => by simp only [Bool.or_eq_true, decide_eq_true_eq]; omega) m
    exact this.imp (fun h => by simpa using h)
  refine ⟨fun l₁ l₂ h => by rw [h], fun l => rfl,
    fun l k => lookupCount_countsBy _ l k, fun l k => lookupCount_countsBy _ l k,
    fun l k => lookupCount_countsBy _ l k, fun l k => lookupCount_countsBy _ l k,
    fun l => rfl, fun l => rfl, ?_, ?_, ?_⟩
  · intro l
    exact (hsorted _).sublist (List.take_sublist _ _)
  · intro l
    exact (hsorted _).sublist (List.take_sublist _ _)
  · intro m n
    apply stableSort_filter
    intro a b ha hb
    simp only [decide_eq_true_eq] at ha hb ⊢
    omega

/-- C6: a rule whose regex fails to compile is constructed anyway with a
disabled (`none`) matcher and a warning naming the rule; such a rule never
contributes a finding on any line, and removing it from a pattern list
changes nothing for the other rules.  Concretely, the scanner's
`useState_initial` regex (the invalid `\u` escape) is the one disabled
rule of the seven-element React collection, which still builds. -/
theorem C6_invalid_pattern_disabled (name regex severity message : List Char)
    (h : parseRegex regex = none) :
    (mkPattern name regex severity message).compiled = none
    ∧ patternWarning name regex
        = some (("Warning: Invalid regex for ".data) ++ name)
    ∧ (∀ (root path : List (List Char)) (n : Nat) (line : List Char)
        (ps1 ps2 : List Pattern),
        checkOneLine root path n line
            (ps1 ++ mkPattern name regex severity message :: ps2)
          = checkOneLine root path n line (ps1 ++ ps2))
    ∧ react_patterns.length = 7
    ∧ (∃ p ∈ react_patterns, p.name = "useState_initial".data ∧ p.compiled = none)
    ∧ (∀ p ∈ react_patterns,
        p.name ≠ "useState_initial".data → p.compiled ≠ none) := by
  refine ⟨by simp [mkPattern, h], by simp [patternWarning, h], ?_, rfl,
    by decide, by decide⟩
  intro root path n line ps1 ps2
  rw [checkOneLine_eq, checkOneLine_eq]
  by_cases hl : 500 < line.length
  · rw [if_pos hl, if_pos hl]
  · rw [if_neg hl, if_neg hl, List.filterMap_append, List.filterMap_append,
      List.filterMap_cons]
    have hnone : lineFinding root path n line
        (mkPattern name regex severity message) = none := by
      simp [lineFinding, mkPattern, h]
    rw [hnone]

/-- C9: for a successfully read file, the amount added to `lines_scanned`
is the length of `content.split('\n')`, which is the number of newline
characters in the decoded content plus one — a trailing newline yields a
counted trailing empty line, and a file with no newline counts as one. -/
theorem C9_lines_scanned_count (root path : List (List Char)) (bytes : List Nat) :
    (checkTypescriptFile root path (.ok bytes)).2
        = (splitCh '\n' (decodeIgnore bytes)).length
    ∧ (checkReactFile root path (.ok bytes)).2
        = (splitCh '\n' (decodeIgnore bytes)).length
    ∧ (splitCh '\n' (decodeIgnore bytes)).length
        = (decodeIgnore bytes).count '\n' + 1 :=
  ⟨rfl, rfl, splitCh_length '\n' (decodeIgnore bytes)⟩

/-- C10: reading succeeds on arbitrary bytes — decoding with errors
ignored never yields a read-failure finding, whatever the bytes; the
synthetic "File Read Error" finding arises only from the exception path.
Concretely an invalid byte 0xFF is silently dropped and the remaining
text is scanned normally. -/
theorem C10_undecodable_bytes_scanned :
    (∀ (root path : List (List Char)) (bytes : List Nat) (f : Finding),
        f ∈ (checkTypescriptFile root path (.ok bytes)).1 →
        f.error_type ≠ "File Read Error".data)
    ∧ (∀ (root path : List (List Char)) (bytes : List Nat) (f : Finding),
        f ∈ (checkReactFile root path (.ok bytes)).1 →
        f.error_type ≠ "File Read Error".data)
    ∧ decodeIgnore (255 :: asciiBytes ("abc".data)) = "abc".data
    ∧ ((checkTypescriptFile (["proj".data]) (["proj".data, "src".data, "a.ts".data])
        (.ok (255 :: asciiBytes ("eval(x)".data)))).1.map (fun f => f.error_type))
        = ["Code Quality - eval".data] := by
  refine ⟨?_, ?_, by decide, by decide⟩
  · intro root path bytes f hf
    exact (checkTypescriptFile_ok_prop hf).2.2
  · intro root path bytes f hf
    exact (checkReactFile_ok_prop hf).2.2

/-! ## Witnesses -/

/-- Witness for C1 at the line `// TODO fix this` and the rule list of
common patterns: the produced finding really comes from a marker rule. -/
theorem C1_comment_suppression_witness :
    ∃ p ∈ common_patterns, p.name ∈ markerNames ∧
      ({ file := "proj/src/a.ts".data, relative_path := "src/a.ts".data,
         module := "src".data, error_type := "Code Quality - TODO".data,
         severity := "warning".data, message := "TODO comment".data,
         line := 1, column := 0,
         code_snippet := "// TODO fix this".data } : Finding).error_type
        = getCategory p ++ p.name :=
  C1_comment_suppression.1 (["proj".data]) (["proj".data, "src".data, "a.ts".data])
    1 ("// TODO fix this".data) common_patterns
    { file := "proj/src/a.ts".data, relative_path := "src/a.ts".data,
      module := "src".data, error_type := "Code Quality - TODO".data,
      severity := "warning".data, message := "TODO comment".data,
      line := 1, column := 0, code_snippet := "// TODO fix this".data }
    (by decide) (by decide)

/-- Witness for the amended C2 at a concrete one-file scan. -/
theorem C2_amended_finding_bounds_witness :
    ("eval(x)".data).length ≤ 150
    ∧ ("Code Quality - eval".data = "File Read Error".data → 1 = 0)
    ∧ ("Code Quality - eval".data ≠ "File Read Error".data → 1 ≤ 1) :=
  C2_amended_finding_bounds (["r".data]) (["r".data])
    [FSEntry.file ("a.ts".data) (.ok (asciiBytes ("eval(x)".data)))]
    { file := "r/a.ts".data, relative_path := "a.ts".data,
      module := "unknown".data, error_type := "Code Quality - eval".data,
      severity := "critical".data, message := "eval() used - security risk".data,
      line := 1, column := 0, code_snippet := "eval(x)".data }
    (by simp only [scanDir, dirsPass]; decide)

/-- Witness for C3: determinism discharged at a concrete list, plus the
stability equation at a concrete key. -/
theorem C3_output_ordering_witness :
    sortedErrors [readErrorFinding (["r".data]) (["r".data, "a.ts".data]) ("boom".data)]
        = sortedErrors [readErrorFinding (["r".data]) (["r".data, "a.ts".data]) ("boom".data)]
    ∧ (sortedErrors [readErrorFinding (["r".data]) (["r".data, "a.ts".data]) ("boom".data)]).filter
          (fun f => sortKey f = toLex (1, toLex ("r/a.ts".data, 0)))
        = ([readErrorFinding (["r".data]) (["r".data, "a.ts".data]) ("boom".data)]).filter
          (fun f => sortKey f = toLex (1, toLex ("r/a.ts".data, 0))) :=
  ⟨C3_output_ordering.2.2.2.2.2 _ _ rfl,
   C3_output_ordering.2.2.2.2.1
     [readErrorFinding (["r".data]) (["r".data, "a.ts".data]) ("boom".data)]
     (toLex (1, toLex ("r/a.ts".data, 0)))⟩

set_option maxRecDepth 16384 in
/-- Witness for C4 at a concrete 501-character line. -/
theorem C4_long_lines_skipped_witness :
    500 < (List.replicate 501 'x').length
    ∧ checkOneLine (["r".data]) (["r".data, "a.ts".data]) 1
        (List.replicate 501 'x') common_patterns = [] :=
  ⟨by decide,
   C4_long_lines_skipped.1 (["r".data]) (["r".data, "a.ts".data]) 1
     (List.replicate 501 'x') common_patterns (by decide)⟩

/-- Witness for C5 at a concrete `node_modules` subtree. -/
theorem C5_walker_prunes_ignored_dirs_witness :
    skipDirs.contains ("node_modules".data) = true
    ∧ scanDir (["r".data]) (["r".data])
        (FSEntry.dir ("node_modules".data)
            [FSEntry.file ("b.ts".data) (.ok (asciiBytes ("eval(x)".data)))]
          :: [FSEntry.file ("a.ts".data) (.error ("x".data))])
      = scanDir (["r".data]) (["r".data])
          [FSEntry.file ("a.ts".data) (.error ("x".data))] :=
  ⟨by decide,
   C5_walker_prunes_ignored_dirs (["r".data]) (["r".data]) []
     [FSEntry.file ("a.ts".data) (.error ("x".data))] ("node_modules".data)
     [FSEntry.file ("b.ts".data) (.ok (asciiBytes ("eval(x)".data)))]
     (by decide)⟩

/-- Witness for C6 at the scanner's own `useState_initial` regex, whose
`\u` escape fails to compile. -/
theorem C6_invalid_pattern_disabled_witness :
    (mkPattern ("useState_initial".data)
        ("useState\\(\\s*\\\x7b|\\useState\\(\\s*\\[".data)
        ("info".data) ("useState with object/array - ensure intentional".data)).compiled
      = none
    ∧ patternWarning ("useState_initial".data)
        ("useState\\(\\s*\\\x7b|\\useState\\(\\s*\\[".data)
      = some (("Warning: Invalid regex for ".data) ++ "useState_initial".data) :=
  ⟨(C6_invalid_pattern_disabled ("useState_initial".data)
      ("useState\\(\\s*\\\x7b|\\useState\\(\\s*\\[".data)
      ("info".data) ("useState with object/array - ensure intentional".data)
      (by decide)).1,
   (C6_invalid_pattern_disabled ("useState_initial".data)
      ("useState\\(\\s*\\\x7b|\\useState\\(\\s*\\[".data)
      ("info".data) ("useState with object/array - ensure intentional".data)
      (by decide)).2.1⟩

/-- Witness for C7 at a concrete unreadable `.ts` file. -/
theorem C7_read_failure_isolated_witness :
    (readErrorFinding (["r".data]) (["r".data, "a.ts".data]) ("boom".data)).line = 0
    ∧ (readErrorFinding (["r".data]) (["r".data, "a.ts".data]) ("boom".data)).error_type
        = "File Read Error".data
    ∧ (readErrorFinding (["r".data]) (["r".data, "a.ts".data]) ("boom".data)).severity
        = "error".data
    ∧ (readErrorFinding (["r".data]) (["r".data, "a.ts".data]) ("boom".data)).message
        = "boom".data :=
  ⟨(C7_read_failure_isolated (["r".data]) (["r".data]) [] [] ("a.ts".data)
      ("boom".data) (by decide)).2.2.1,
   (C7_read_failure_isolated (["r".data]) (["r".data]) [] [] ("a.ts".data)
      ("boom".data) (by decide)).2.2.2.1,
   (C7_read_failure_isolated (["r".data]) (["r".data]) [] [] ("a.ts".data)
      ("boom".data) (by decide)).2.2.2.2.1,
   (C7_read_failure_isolated (["r".data]) (["r".data]) [] [] ("a.ts".data)
      ("boom".data) (by decide)).2.2.2.2.2⟩

/-- Witness for C8: determinism discharged at a concrete list, plus the
severity-count equation at a concrete key. -/
theorem C8_statistics_pure_witness :
    generateStatistics [readErrorFinding (["r".data]) (["r".data, "a.ts".data]) ("boom".data)]
        = generateStatistics [readErrorFinding (["r".data]) (["r".data, "a.ts".data]) ("boom".data)]
    ∧ lookupCount ("error".data)
        (generateStatistics
          [readErrorFinding (["r".data]) (["r".data, "a.ts".data]) ("boom".data)]).by_severity
      = ([readErrorFinding (["r".data]) (["r".data, "a.ts".data]) ("boom".data)]).countP
          (fun f => f.severity = "error".data) :=
  ⟨C8_statistics_pure.1 _ _ rfl,
   C8_statistics_pure.2.2.1
     [readErrorFinding (["r".data]) (["r".data, "a.ts".data]) ("boom".data)]
     ("error".data)⟩

/-- Witness for C10 at a concrete scanned file containing `eval(`. -/
theorem C10_undecodable_bytes_scanned_witness :
    "Code Quality - eval".data ≠ "File Read Error".data :=
  C10_undecodable_bytes_scanned.1 (["proj".data])
    (["proj".data, "src".data, "a.ts".data]) (asciiBytes ("eval(x)".data))
    { file := "proj/src/a.ts".data, relative_path := "src/a.ts".data,
      module := "src".data, error_type := "Code Quality - eval".data,
      severity := "critical".data, message := "eval() used - security risk".data,
      line := 1, column := 0, code_snippet := "eval(x)".data }
    (by decide)
